import Mathlib

/-!
Verification of the iwd network-enumeration client (src/main.rs).

The development shallowly embeds the program:
* wire values (`Value`) and property bags (`Bag`) model the `a{sv}` maps;
* the five typed records (`Station`, `Device`, `Network`, `KnownNetwork`,
  `Adapter`) and their serde/zvariant decoders;
* `visitMap` models `All::deserialize`'s `visit_map` loop;
* `buildCatalog`, `joinNetworks` and `runMain` model the body of `main`.
-/

namespace Iwd

/-- A dynamically typed wire value (`zvariant::OwnedValue`), restricted to the
shapes the five schemas can consume. -/
inductive Value where
  | str : String → Value
  | bool : Bool → Value
  | path : String → Value
  | arr : List Value → Value
deriving Repr

/-- A property bag: field name → wire value (`HashMap<String, OwnedValue>`). -/
abbrev Bag := List (String × Value)

/-- `enum StationState`, `#[serde(rename_all = "lowercase")]`. -/
inductive StationState where
  | connected | disconnected | connecting | disconnecting | roaming
deriving DecidableEq, Repr

/-- `enum DeviceMode`, `#[serde(rename_all = "kebab-case")]`:
`AdHoc` → "ad-hoc", `Station` → "station", `Ap` → "ap". -/
inductive DeviceMode where
  | adHoc | station | ap
deriving DecidableEq, Repr

/-- `enum NetworkType`, `#[serde(rename_all = "lowercase")]` with
`#[serde(rename = "8021x")]` on `Eap`. -/
inductive NetworkType where
  | open_ | wep | psk | eap | hotspot
deriving DecidableEq, Repr

/-- serde string form of `StationState`. -/
def stationStateOfString : String → Option StationState
  | "connected" => some .connected
  | "disconnected" => some .disconnected
  | "connecting" => some .connecting
  | "disconnecting" => some .disconnecting
  | "roaming" => some .roaming
  | _ => none

/-- serde string form of `DeviceMode` (kebab-case of `AdHoc`, `Station`, `Ap`). -/
def deviceModeOfString : String → Option DeviceMode
  | "ad-hoc" => some .adHoc
  | "station" => some .station
  | "ap" => some .ap
  | _ => none

/-- serde string form of `NetworkType`. -/
def networkTypeOfString : String → Option NetworkType
  | "open" => some .open_
  | "wep" => some .wep
  | "psk" => some .psk
  | "8021x" => some .eap
  | "hotspot" => some .hotspot
  | _ => none

/-- A decode error, carrying the interface and field it names. -/
structure DecodeError where
  iface : String
  field : String
deriving DecidableEq, Repr

/-- `struct Station` (fields renamed to PascalCase on the wire). -/
structure Station where
  state : StationState
  connected_network : Option String
  scanning : Bool
deriving DecidableEq, Repr

/-- `struct Device`. -/
structure Device where
  name : String
  address : String
  powered : Bool
  adapter : String
  mode : DeviceMode
deriving DecidableEq, Repr

/-- `struct Network`. -/
structure Network where
  name : String
  type_ : NetworkType
  connected : Bool
  device : String
  known_network : Option String
deriving DecidableEq, Repr

/-- `struct KnownNetwork`. -/
structure KnownNetwork where
  name : String
  type_ : NetworkType
  hidden : Bool
  last_connected_time : String
  auto_connect : Bool
deriving DecidableEq, Repr

/-- `struct Adapter`. -/
structure Adapter where
  name : String
  powered : Bool
  model : Option String
  vendor : Option String
  supported_modes : List DeviceMode
deriving DecidableEq, Repr

/-- Required string field (`DeserializeDict`: missing or wrong shape → error). -/
def reqStr (iface : String) (bag : Bag) (k : String) : Except DecodeError String :=
  match List.lookup k bag with
  | some (.str s) => .ok s
  | _ => .error ⟨iface, k⟩

/-- Required boolean field. -/
def reqBool (iface : String) (bag : Bag) (k : String) : Except DecodeError Bool :=
  match List.lookup k bag with
  | some (.bool b) => .ok b
  | _ => .error ⟨iface, k⟩

/-- Required object-path field. -/
def reqPath (iface : String) (bag : Bag) (k : String) : Except DecodeError String :=
  match List.lookup k bag with
  | some (.path p) => .ok p
  | _ => .error ⟨iface, k⟩

/-- Optional object-path field: absent → `none`; present with wrong shape → error. -/
def optPath (iface : String) (bag : Bag) (k : String) :
    Except DecodeError (Option String) :=
  match List.lookup k bag with
  | some (.path p) => .ok (some p)
  | some _ => .error ⟨iface, k⟩
  | none => .ok none

/-- Optional string field. -/
def optStr (iface : String) (bag : Bag) (k : String) :
    Except DecodeError (Option String) :=
  match List.lookup k bag with
  | some (.str s) => .ok (some s)
  | some _ => .error ⟨iface, k⟩
  | none => .ok none

/-- Required enumeration field: a string, which must lie in the closed set. -/
def reqEnum {α : Type} (iface : String) (bag : Bag) (k : String)
    (parse : String → Option α) : Except DecodeError α :=
  match reqStr iface bag k with
  | .error e => .error e
  | .ok s =>
    match parse s with
    | some v => .ok v
    | none => .error ⟨iface, k⟩

/-- Required array-of-`DeviceMode` field (`Box<[DeviceMode]>`). -/
def reqModeList (iface : String) (bag : Bag) (k : String) :
    Except DecodeError (List DeviceMode) :=
  match List.lookup k bag with
  | some (.arr vs) =>
    vs.mapM fun v =>
      match v with
      | .str s =>
        match deviceModeOfString s with
        | some m => .ok m
        | none => .error (⟨iface, k⟩ : DecodeError)
      | _ => .error ⟨iface, k⟩
  | _ => .error ⟨iface, k⟩

def stationName : String := "net.connman.iwd.Station"
def deviceName : String := "net.connman.iwd.Device"
def networkName : String := "net.connman.iwd.Network"
def knownNetworkName : String := "net.connman.iwd.KnownNetwork"
def adapterName : String := "net.connman.iwd.Adapter"

/-- Decoder of the `Station` property bag. -/
def decodeStation (bag : Bag) : Except DecodeError Station := do
  let state ← reqEnum stationName bag "State" stationStateOfString
  let cn ← optPath stationName bag "ConnectedNetwork"
  let scanning ← reqBool stationName bag "Scanning"
  pure ⟨state, cn, scanning⟩

/-- Decoder of the `Device` property bag. -/
def decodeDevice (bag : Bag) : Except DecodeError Device := do
  let name ← reqStr deviceName bag "Name"
  let address ← reqStr deviceName bag "Address"
  let powered ← reqBool deviceName bag "Powered"
  let adapter ← reqPath deviceName bag "Adapter"
  let mode ← reqEnum deviceName bag "Mode" deviceModeOfString
  pure ⟨name, address, powered, adapter, mode⟩

/-- Decoder of the `Network` property bag. -/
def decodeNetwork (bag : Bag) : Except DecodeError Network := do
  let name ← reqStr networkName bag "Name"
  let ty ← reqEnum networkName bag "Type" networkTypeOfString
  let connected ← reqBool networkName bag "Connected"
  let device ← reqPath networkName bag "Device"
  let kn ← optPath networkName bag "KnownNetwork"
  pure ⟨name, ty, connected, device, kn⟩

/-- Decoder of the `KnownNetwork` property bag. -/
def decodeKnownNetwork (bag : Bag) : Except DecodeError KnownNetwork := do
  let name ← reqStr knownNetworkName bag "Name"
  let ty ← reqEnum knownNetworkName bag "Type" networkTypeOfString
  let hidden ← reqBool knownNetworkName bag "Hidden"
  let lct ← reqStr knownNetworkName bag "LastConnectedTime"
  let ac ← reqBool knownNetworkName bag "AutoConnect"
  pure ⟨name, ty, hidden, lct, ac⟩

/-- Decoder of the `Adapter` property bag. -/
def decodeAdapter (bag : Bag) : Except DecodeError Adapter := do
  let name ← reqStr adapterName bag "Name"
  let powered ← reqBool adapterName bag "Powered"
  let model ← optStr adapterName bag "Model"
  let vendor ← optStr adapterName bag "Vendor"
  let modes ← reqModeList adapterName bag "SupportedModes"
  pure ⟨name, powered, model, vendor, modes⟩

/-- `struct All`: the Capability Bundle.  `rest` models the `Rest` hash map by
its lookup function. -/
structure All where
  station : Option Station := none
  device : Option Device := none
  network : Option Network := none
  known_network : Option KnownNetwork := none
  adapter : Option Adapter := none
  rest : String → Option Bag := fun _ => none

/-- One step of the `visit_map` loop in `All::deserialize`: the if/else-if
chain on the interface name, with `?`-propagation of decode errors and
`HashMap::insert` for the residual branch. -/
def visitStep (res : All) (kv : String × Bag) : Except DecodeError All :=
  if kv.1 = stationName then
    (decodeStation kv.2).map fun v => { res with station := some v }
  else if kv.1 = deviceName then
    (decodeDevice kv.2).map fun v => { res with device := some v }
  else if kv.1 = networkName then
    (decodeNetwork kv.2).map fun v => { res with network := some v }
  else if kv.1 = knownNetworkName then
    (decodeKnownNetwork kv.2).map fun v => { res with known_network := some v }
  else if kv.1 = adapterName then
    (decodeAdapter kv.2).map fun v => { res with adapter := some v }
  else
    .ok { res with
          rest := fun k => if k = kv.1 then some kv.2 else res.rest k }

/-- `All::deserialize`'s `visit_map`: fold the entry sequence over
`visitStep`, starting from `All::default()`. -/
def visitMap (l : List (String × Bag)) : Except DecodeError All :=
  List.foldlM visitStep {} l

/-- The five recognized interface names, in the order of the if/else chain. -/
def recognizedNames : List String :=
  [stationName, deviceName, networkName, knownNetworkName, adapterName]

/-- A decoded typed record, tagged by which interface it came from. -/
inductive Decoded where
  | station : Station → Decoded
  | device : Device → Decoded
  | network : Network → Decoded
  | knownNetwork : KnownNetwork → Decoded
  | adapter : Adapter → Decoded
deriving DecidableEq, Repr

/-- The interface name a decoded record belongs to. -/
def Decoded.iface : Decoded → String
  | .station _ => stationName
  | .device _ => deviceName
  | .network _ => networkName
  | .knownNetwork _ => knownNetworkName
  | .adapter _ => adapterName

/-- The decoder `visit_map` dispatches to for a recognized name;
`none` when the name is unrecognized. -/
def decodeIface (n : String) (b : Bag) : Option (Except DecodeError Decoded) :=
  if n = stationName then some ((decodeStation b).map .station)
  else if n = deviceName then some ((decodeDevice b).map .device)
  else if n = networkName then some ((decodeNetwork b).map .network)
  else if n = knownNetworkName then some ((decodeKnownNetwork b).map .knownNetwork)
  else if n = adapterName then some ((decodeAdapter b).map .adapter)
  else none

/-- Read the bundle slot for a recognized interface name. -/
def slotGet (a : All) (n : String) : Option Decoded :=
  if n = stationName then a.station.map .station
  else if n = deviceName then a.device.map .device
  else if n = networkName then a.network.map .network
  else if n = knownNetworkName then a.known_network.map .knownNetwork
  else if n = adapterName then a.adapter.map .adapter
  else none

/-- Store a decoded record into its bundle slot. -/
def setSlot (a : All) : Decoded → All
  | .station s => { a with station := some s }
  | .device d => { a with device := some d }
  | .network n => { a with network := some n }
  | .knownNetwork k => { a with known_network := some k }
  | .adapter d => { a with adapter := some d }

/-- The bag of the last occurrence of interface `n` in the entry sequence. -/
def lastBagFor (n : String) : List (String × Bag) → Option Bag
  | [] => none
  | kv :: t =>
    match lastBagFor n t with
    | some b => some b
    | none => if kv.1 = n then some kv.2 else none

/-- The Object Catalog built by `main`'s classification loop: an optional
station path and the network lookup (`HashMap<OwnedObjectPath, Network>`,
modelled by its lookup function). -/
structure Catalog where
  station : Option String
  networks : String → Option Network

/-- One iteration of `main`'s `for (path, s) in objects` loop: the
first-match-wins if/else-if chain over the bundle's slots. -/
def classifyStep (c : Catalog) (entry : String × All) : Catalog :=
  if entry.2.station.isSome && entry.2.device.isSome then
    { c with station := some entry.1 }
  else if entry.2.network.isSome then
    { c with
      networks := fun k =>
        if k = entry.1 then entry.2.network else c.networks k }
  else
    c

/-- The whole classification loop, starting from `station = None` and an
empty network map. -/
def buildCatalog (objs : List (String × All)) : Catalog :=
  objs.foldl classifyStep ⟨none, fun _ => none⟩

/-- The output loop of `main`: for each ordered `(net, _strength)` pair,
print the network's name when `networks.get(net)` hits, else skip. -/
def joinNetworks (lookup : String → Option Network) :
    List (String × Int) → List String
  | [] => []
  | (net, _strength) :: t =>
    match lookup net with
    | some nw => nw.name :: joinNetworks lookup t
    | none => joinNetworks lookup t

/-- The IPC calls issued against the station after classification. -/
inductive Call where
  | proxyStation | scan | getOrderedNetworks
deriving DecidableEq, Repr

/-- Results of the IPC calls `main` may issue once a station is chosen:
proxy resolution, `scan()`, and `get_ordered_networks()`. -/
structure Oracle where
  proxyRes : Except String Unit
  scanRes : Except String Unit
  orderedRes : Except String (List (String × Int))

/-- The body of `main` after `get_managed_objects` has been decoded into
`objects`: build the catalog; if a station was chosen, resolve its proxy
(`?`), fire `scan()` discarding its result (`.ok()`), then
`get_ordered_networks()` (`?`) and the print loop.  Returns the trace of IPC
calls issued and either the stdout lines (exit 0) or the fatal error. -/
def runMain (objects : List (String × All)) (o : Oracle) :
    List Call × Except String (List String) :=
  let cat := buildCatalog objects
  match cat.station with
  | none => ([], .ok [])
  | some _path =>
    match o.proxyRes with
    | .error e => ([.proxyStation], .error e)
    | .ok _ =>
      match o.orderedRes with
      | .error e => ([.proxyStation, .scan, .getOrderedNetworks], .error e)
      | .ok pairs =>
        ([.proxyStation, .scan, .getOrderedNetworks],
         .ok (joinNetworks cat.networks pairs))

/-- `struct OPath<T>`: an object path with a phantom capability tag. -/
structure OPath (T : Type) where
  path : String
deriving DecidableEq, Repr

/-- `impl From<OwnedObjectPath> for OPath<T>`: total, no validation. -/
def OPath.ofPath (T : Type) (p : String) : OPath T := ⟨p⟩

/-- `impl From<OPath<T>> for OwnedObjectPath`: project the identity back. -/
def OPath.toPath {T : Type} (h : OPath T) : String := h.path

/-! ### Helper lemmas on the decoder -/

theorem decodeIface_none (n : String) (b : Bag) (h : n ∉ recognizedNames) :
    decodeIface n b = none := by
  simp only [recognizedNames, List.mem_cons, List.not_mem_nil, or_false,
    not_or] at h
  obtain ⟨h1, h2, h3, h4, h5⟩ := h
  simp [decodeIface, h1, h2, h3, h4, h5]

theorem decodeIface_some (n : String) (b : Bag) (h : n ∈ recognizedNames) :
    ∃ r, decodeIface n b = some r := by
  simp only [recognizedNames, List.mem_cons, List.not_mem_nil, or_false] at h
  rcases h with h | h | h | h | h <;> subst h <;>
    simp [decodeIface, stationName, deviceName, networkName,
      knownNetworkName, adapterName]

theorem decodeIface_ok_iface (n : String) (b : Bag) (v : Decoded)
    (h : decodeIface n b = some (.ok v)) : v.iface = n := by
  by_cases h1 : n = stationName
  · subst h1
    cases hd : decodeStation b <;>
      simp [decodeIface, hd, Except.map, stationName] at h
    subst h; simp [Decoded.iface, stationName]
  by_cases h2 : n = deviceName
  · subst h2
    cases hd : decodeDevice b <;>
      simp [decodeIface, hd, Except.map, stationName, deviceName] at h
    subst h; simp [Decoded.iface, deviceName]
  by_cases h3 : n = networkName
  · subst h3
    cases hd : decodeNetwork b <;>
      simp [decodeIface, hd, Except.map, stationName, deviceName,
        networkName] at h
    subst h; simp [Decoded.iface, networkName]
  by_cases h4 : n = knownNetworkName
  · subst h4
    cases hd : decodeKnownNetwork b <;>
      simp [decodeIface, hd, Except.map, stationName, deviceName,
        networkName, knownNetworkName] at h
    subst h; simp [Decoded.iface, knownNetworkName]
  by_cases h5 : n = adapterName
  · subst h5
    cases hd : decodeAdapter b <;>
      simp [decodeIface, hd, Except.map, stationName, deviceName,
        networkName, knownNetworkName, adapterName] at h
    subst h; simp [Decoded.iface, adapterName]
  · simp [decodeIface, h1, h2, h3, h4, h5] at h

theorem visitStep_char (a : All) (n : String) (b : Bag) :
    visitStep a (n, b) =
      match decodeIface n b with
      | some r => r.map (setSlot a)
      | none =>
        .ok { a with rest := fun k => if k = n then some b else a.rest k } := by
  by_cases h1 : n = stationName
  · subst h1
    cases hd : decodeStation b <;>
      simp [visitStep, decodeIface, hd, Except.map, setSlot, stationName]
  by_cases h2 : n = deviceName
  · subst h2
    cases hd : decodeDevice b <;>
      simp [visitStep, decodeIface, hd, Except.map, setSlot, stationName,
        deviceName]
  by_cases h3 : n = networkName
  · subst h3
    cases hd : decodeNetwork b <;>
      simp [visitStep, decodeIface, hd, Except.map, setSlot, stationName,
        deviceName, networkName]
  by_cases h4 : n = knownNetworkName
  · subst h4
    cases hd : decodeKnownNetwork b <;>
      simp [visitStep, decodeIface, hd, Except.map, setSlot, stationName,
        deviceName, networkName, knownNetworkName]
  by_cases h5 : n = adapterName
  · subst h5
    cases hd : decodeAdapter b <;>
      simp [visitStep, decodeIface, hd, Except.map, setSlot, stationName,
        deviceName, networkName, knownNetworkName, adapterName]
  · simp [visitStep, decodeIface, h1, h2, h3, h4, h5]

theorem slotGet_setSlot_self (a : All) (d : Decoded) :
    slotGet (setSlot a d) d.iface = some d := by
  cases d <;>
    simp [setSlot, slotGet, Decoded.iface, stationName, deviceName,
      networkName, knownNetworkName, adapterName]

theorem slotGet_setSlot_other (a : All) (d : Decoded) (n : String)
    (h : n ≠ d.iface) : slotGet (setSlot a d) n = slotGet a n := by
  cases d <;> simp only [Decoded.iface] at h <;>
    simp [setSlot, slotGet, h]

theorem rest_setSlot (a : All) (d : Decoded) : (setSlot a d).rest = a.rest := by
  cases d <;> simp [setSlot]

theorem slotGet_rest_update (a : All) (r : String → Option Bag) (n : String) :
    slotGet { a with rest := r } n = slotGet a n := by
  simp [slotGet]

/-- Characterization of the whole `visit_map` fold from an arbitrary start
state: recognized slots hold the decode of the last occurrence, recognized
names never reach the residual map, and the residual map holds exactly the
last bag of each unrecognized name. -/
theorem foldl_ok_char (l : List (String × Bag)) :
    ∀ (a₀ res : All), List.foldlM visitStep a₀ l = .ok res →
    (∀ n, n ∈ recognizedNames →
      (match lastBagFor n l with
       | none => slotGet res n = slotGet a₀ n
       | some b => ∃ v, decodeIface n b = some (.ok v) ∧
           slotGet res n = some v)) ∧
    (∀ n, n ∈ recognizedNames → res.rest n = a₀.rest n) ∧
    (∀ n, n ∉ recognizedNames →
      res.rest n = match lastBagFor n l with
        | some b => some b
        | none => a₀.rest n) := by
  induction l with
  | nil =>
    intro a₀ res h
    rw [List.foldlM_nil] at h
    simp only [pure, Except.pure, Except.ok.injEq] at h
    subst h
    refine ⟨?_, ?_, ?_⟩ <;> intro n hn <;> simp [lastBagFor]
  | cons kv t ih =>
    intro a₀ res h
    obtain ⟨k, b⟩ := kv
    rw [List.foldlM_cons] at h
    cases hstep : visitStep a₀ (k, b) with
    | error e => rw [hstep] at h; simp [bind, Except.bind] at h
    | ok a₁ =>
      rw [hstep] at h
      simp only [bind, Except.bind] at h
      obtain ⟨ihs, ihr1, ihr2⟩ := ih a₁ res h
      by_cases hk : k ∈ recognizedNames
      · obtain ⟨r, hr⟩ := decodeIface_some k b hk
        rw [visitStep_char, hr] at hstep
        cases r with
        | error e => simp [Except.map] at hstep
        | ok v =>
          simp only [Except.map, Except.ok.injEq] at hstep
          have hif : v.iface = k := decodeIface_ok_iface k b v hr
          refine ⟨?_, ?_, ?_⟩
          · intro n hn
            cases hlast : lastBagFor n t with
            | some b' =>
              have := ihs n hn
              rw [hlast] at this
              simpa [lastBagFor, hlast] using this
            | none =>
              have hres := ihs n hn
              rw [hlast] at hres
              by_cases hkn : k = n
              · subst hkn
                simp only [lastBagFor, hlast, if_pos rfl]
                refine ⟨v, ?_, ?_⟩
                · rw [hr]
                · rw [hres, ← hstep, ← hif, slotGet_setSlot_self]
              · simp only [lastBagFor, hlast, if_neg hkn]
                rw [hres, ← hstep, slotGet_setSlot_other]
                rw [hif]
                exact fun hc => hkn hc.symm
          · intro n hn
            rw [ihr1 n hn, ← hstep, rest_setSlot]
          · intro n hn
            have hnk : n ≠ k := fun hc => hn (hc ▸ hk)
            cases hlast : lastBagFor n t with
            | some b' =>
              have := ihr2 n hn
              rw [hlast] at this
              simpa [lastBagFor, hlast] using this
            | none =>
              have hres := ihr2 n hn
              rw [hlast] at hres
              simp only [lastBagFor, hlast, if_neg (Ne.symm hnk)]
              rw [hres, ← hstep, rest_setSlot]
      · rw [visitStep_char, decodeIface_none k b hk] at hstep
        simp only [Except.ok.injEq] at hstep
        refine ⟨?_, ?_, ?_⟩
        · intro n hn
          have hkn : k ≠ n := fun hc => hk (hc ▸ hn)
          have hsg : slotGet a₁ n = slotGet a₀ n := by
            rw [← hstep, slotGet_rest_update]
          cases hlast : lastBagFor n t with
          | some b' =>
            have := ihs n hn
            rw [hlast] at this
            simpa [lastBagFor, hlast] using this
          | none =>
            have hres := ihs n hn
            rw [hlast] at hres
            simp only [lastBagFor, hlast, if_neg hkn]
            rw [hres, hsg]
        · intro n hn
          have hnk : n ≠ k := fun hc => hk (hc ▸ hn)
          rw [ihr1 n hn, ← hstep]
          simp [if_neg hnk]
        · intro n hn
          cases hlast : lastBagFor n t with
          | some b' =>
            have := ihr2 n hn
            rw [hlast] at this
            simpa [lastBagFor, hlast] using this
          | none =>
            have hres := ihr2 n hn
            rw [hlast] at hres
            by_cases hkn : k = n
            · subst hkn
              simp only [lastBagFor, hlast, if_pos rfl]
              rw [hres, ← hstep]
              simp
            · simp only [lastBagFor, hlast, if_neg hkn]
              rw [hres, ← hstep]
              simp [if_neg (Ne.symm hkn)]

/-- If any recognized entry of the sequence fails to decode, the whole fold
fails, whatever the start state. -/
theorem foldl_mem_err (l : List (String × Bag)) :
    ∀ (a₀ : All) (n : String) (b : Bag) (e : DecodeError),
    (n, b) ∈ l → decodeIface n b = some (.error e) →
    ∃ e', List.foldlM visitStep a₀ l = .error e' := by
  induction l with
  | nil => intro a₀ n b e hmem _; simp at hmem
  | cons kv t ih =>
    intro a₀ n b e hmem hdec
    obtain ⟨k, b'⟩ := kv
    rw [List.foldlM_cons]
    rcases List.mem_cons.mp hmem with hhead | htail
    · simp only [Prod.mk.injEq] at hhead
      obtain ⟨rfl, rfl⟩ := hhead
      rw [visitStep_char, hdec]
      exact ⟨e, rfl⟩
    · cases hstep : visitStep a₀ (k, b') with
      | error e2 => exact ⟨e2, rfl⟩
      | ok a₁ =>
        simp only [bind, Except.bind]
        exact ih a₁ n b e htail hdec

theorem lastBagFor_append (n : String) (l1 l2 : List (String × Bag)) :
    lastBagFor n (l1 ++ l2) =
      match lastBagFor n l2 with
      | some b => some b
      | none => lastBagFor n l1 := by
  induction l1 with
  | nil =>
    simp only [List.nil_append]
    cases lastBagFor n l2 <;> simp [lastBagFor]
  | cons kv t ih =>
    simp only [List.cons_append, lastBagFor, List.append_eq]
    rw [ih]
    cases lastBagFor n l2 with
    | none => cases lastBagFor n t <;> simp
    | some b => simp

theorem lastBagFor_not_mem (n : String) (l : List (String × Bag))
    (h : ∀ kv ∈ l, kv.1 ≠ n) : lastBagFor n l = none := by
  induction l with
  | nil => rfl
  | cons kv t ih =>
    have hkv : kv.1 ≠ n := h kv (List.mem_cons_self kv t)
    have ht : lastBagFor n t = none :=
      ih fun x hx => h x (List.mem_cons_of_mem kv hx)
    simp [lastBagFor, ht, hkv]

/-! ### Claim theorems: the Object Decoder -/

/-- C1: when an object's interface map presents the same recognized
interface twice with different property bags, the decoded bundle's slot for
that interface holds exactly the value decoded from the later occurrence. -/
theorem duplicate_interface_last_wins
    (l1 l2 l3 : List (String × Bag)) (n : String) (b1 b2 : Bag) (res : All)
    (hrec : n ∈ recognizedNames) (hne : b1 ≠ b2)
    (hl3 : ∀ kv ∈ l3, kv.1 ≠ n)
    (hok : visitMap (l1 ++ (n, b1) :: l2 ++ (n, b2) :: l3) = .ok res) :
    ∃ v, decodeIface n b2 = some (.ok v) ∧ slotGet res n = some v := by
  have hchar := (foldl_ok_char _ _ _ hok).1 n hrec
  have hB : lastBagFor n ((n, b2) :: l3) = some b2 := by
    simp [lastBagFor, lastBagFor_not_mem n l3 hl3]
  rw [lastBagFor_append, hB] at hchar
  exact hchar

def stBagRoaming : Bag :=
  [("State", Value.str "roaming"), ("Scanning", Value.bool true)]

def stBagConnected : Bag :=
  [("State", Value.str "connected"), ("Scanning", Value.bool false)]

def stAllConnected : All :=
  { station := some ⟨StationState.connected, none, false⟩ }

theorem duplicate_interface_last_wins_witness :
    ∃ v, decodeIface stationName stBagConnected = some (.ok v) ∧
      slotGet stAllConnected stationName = some v :=
  duplicate_interface_last_wins [] [] [] stationName stBagRoaming
    stBagConnected stAllConnected (by decide)
    (by simp [stBagRoaming, stBagConnected]) (by simp) rfl

/-- C2: for every successfully decoded bundle, the residual mapping never
contains a recognized interface name, and each unrecognized name maps to
exactly the raw bag of its last occurrence, untouched. -/
theorem residual_never_recognized (l : List (String × Bag)) (res : All)
    (hok : visitMap l = .ok res) :
    (∀ n, n ∈ recognizedNames → res.rest n = none) ∧
    (∀ n, n ∉ recognizedNames → res.rest n = lastBagFor n l) := by
  obtain ⟨_, h1, h2⟩ := foldl_ok_char l {} res hok
  refine ⟨fun n hn => ?_, fun n hn => ?_⟩
  · rw [h1 n hn]
  · rw [h2 n hn]
    cases lastBagFor n l <;> rfl

def fooBag : Bag := [("Bar", Value.bool true)]

def wResList : List (String × Bag) :=
  [(stationName, stBagConnected), ("org.example.Foo", fooBag)]

def wResAll : All :=
  { station := some ⟨StationState.connected, none, false⟩,
    rest := fun k => if k = "org.example.Foo" then some fooBag else none }

theorem residual_never_recognized_witness :
    wResAll.rest stationName = none ∧
      wResAll.rest "org.example.Foo" = some fooBag := by
  have h := residual_never_recognized wResList wResAll rfl
  exact ⟨h.1 stationName (by decide),
    (h.2 "org.example.Foo" (by decide)).trans rfl⟩

/-- C3: a decode error in any recognized interface's property bag fails the
whole bundle: `visit_map` returns an error, so no bundle — in particular no
residual entry for the failing interface and no partial typed record — is
ever produced. -/
theorem decode_error_fails_bundle (l : List (String × Bag)) (n : String)
    (b : Bag) (e : DecodeError) (hmem : (n, b) ∈ l)
    (hdec : decodeIface n b = some (.error e)) :
    ∃ e2, visitMap l = .error e2 :=
  foldl_mem_err l {} n b e hmem hdec

def badStationBag : Bag :=
  [("State", Value.str "unknown-state"), ("Scanning", Value.bool false)]

theorem decode_error_fails_bundle_witness :
    ∃ e2, visitMap [(stationName, badStationBag)] = .error e2 :=
  decode_error_fails_bundle _ stationName badStationBag
    ⟨stationName, "State"⟩ (List.mem_singleton.mpr rfl) rfl

/-! ### Claim theorems: the DeviceMode enumeration -/

/-- A `Device` bag whose `Mode` field holds a string outside the closed set
never decodes, whatever the other fields hold. -/
theorem decodeDevice_bad_mode (s : String) (bag : Bag)
    (hs : deviceModeOfString s = none)
    (hb : List.lookup "Mode" bag = some (Value.str s)) :
    ∃ e, decodeDevice bag = .error e := by
  have hm : reqEnum deviceName bag "Mode" deviceModeOfString =
      .error ⟨deviceName, "Mode"⟩ := by
    simp [reqEnum, reqStr, hb, hs]
  cases h1 : reqStr deviceName bag "Name" with
  | error e => exact ⟨e, by simp [decodeDevice, h1, bind, Except.bind]⟩
  | ok v1 =>
    cases h2 : reqStr deviceName bag "Address" with
    | error e => exact ⟨e, by simp [decodeDevice, h1, h2, bind, Except.bind]⟩
    | ok v2 =>
      cases h3 : reqBool deviceName bag "Powered" with
      | error e =>
        exact ⟨e, by simp [decodeDevice, h1, h2, h3, bind, Except.bind]⟩
      | ok v3 =>
        cases h4 : reqPath deviceName bag "Adapter" with
        | error e =>
          exact ⟨e, by simp [decodeDevice, h1, h2, h3, h4, bind, Except.bind]⟩
        | ok v4 =>
          exact ⟨⟨deviceName, "Mode"⟩,
            by simp [decodeDevice, h1, h2, h3, h4, hm, bind, Except.bind]⟩

/-- C4 counterexample: the string "access-point" is NOT a decodable device
mode — the decoder's kebab-case form of the `Ap` variant is "ap". -/
theorem deviceMode_access_point_fails :
    deviceModeOfString "access-point" = none := rfl

/-- C4 (amended): the device mode enumeration decodes from exactly the
case-sensitive strings "ad-hoc", "station" and "ap"; any other string — in
particular "access-point" — is a hard decode error for the whole object. -/
theorem deviceMode_decode_exact :
    deviceModeOfString "ad-hoc" = some DeviceMode.adHoc ∧
    deviceModeOfString "station" = some DeviceMode.station ∧
    deviceModeOfString "ap" = some DeviceMode.ap ∧
    (∀ s : String, s ≠ "ad-hoc" → s ≠ "station" → s ≠ "ap" →
      deviceModeOfString s = none) ∧
    (∀ s : String, deviceModeOfString s = none →
      ∀ (bag : Bag) (l : List (String × Bag)),
        List.lookup "Mode" bag = some (Value.str s) →
        (deviceName, bag) ∈ l →
        ∃ e2, visitMap l = .error e2) := by
  refine ⟨rfl, rfl, rfl, ?_, ?_⟩
  · intro s h1 h2 h3
    unfold deviceModeOfString
    split <;> simp_all
  · intro s hs bag l hb hmem
    obtain ⟨e, he⟩ := decodeDevice_bad_mode s bag hs hb
    have hdec : decodeIface deviceName bag = some (.error e) := by
      simp [decodeIface, deviceName, stationName, he, Except.map]
    exact foldl_mem_err l {} deviceName bag e hmem hdec

def badModeBag : Bag :=
  [("Name", Value.str "wlan0"), ("Address", Value.str "aa:bb:cc:dd:ee:ff"),
   ("Powered", Value.bool true), ("Adapter", Value.path "/adapter0"),
   ("Mode", Value.str "access-point")]

theorem deviceMode_decode_exact_witness :
    deviceModeOfString "access-point" = none ∧
    ∃ e2, visitMap [(deviceName, badModeBag)] = .error e2 := by
  obtain ⟨-, -, -, h4, h5⟩ := deviceMode_decode_exact
  have hnone := h4 "access-point" (by decide) (by decide) (by decide)
  exact ⟨hnone, h5 "access-point" hnone badModeBag _ rfl
    (List.mem_singleton.mpr rfl)⟩

/-! ### Claim theorems: catalog, join and the main control flow -/

def exNetFoo : Network := ⟨"Foo", .psk, false, "/dev0", none⟩

def exNetBar : Network := ⟨"Bar", .open_, false, "/dev0", none⟩

def exLookup : String → Option Network := fun k =>
  if k = "/net/A" then some exNetFoo
  else if k = "/net/C" then some exNetBar
  else none

/-- C5: the output loop emits exactly the names of the pairs whose identity
resolves in the lookup, in input order (the order-preserving, skip-silent
`filterMap`); in particular the spec's scenario [(A,90),(B,70),(C,50)] with
B absent prints exactly ["Foo","Bar"]. -/
theorem join_order_preserved :
    (∀ (lookup : String → Option Network) (pairs : List (String × Int)),
      joinNetworks lookup pairs =
        pairs.filterMap fun p => (lookup p.1).map Network.name) ∧
    joinNetworks exLookup [("/net/A", 90), ("/net/B", 70), ("/net/C", 50)] =
      ["Foo", "Bar"] := by
  refine ⟨fun lookup pairs => ?_, rfl⟩
  induction pairs with
  | nil => rfl
  | cons p t ih =>
    obtain ⟨net, st⟩ := p
    cases h : lookup net <;>
      simp [joinNetworks, h, ih, List.filterMap_cons]

/-- C6: classification of one bundle is first-match-wins: Station+Device
populated always yields the station candidate and leaves the network lookup
untouched; a bundle with only Network populated goes to the lookup and
leaves the station candidate untouched. -/
theorem classification_first_match (c : Catalog) (path : String) (s : All) :
    (s.station.isSome = true → s.device.isSome = true →
      (classifyStep c (path, s)).station = some path ∧
      (classifyStep c (path, s)).networks = c.networks) ∧
    (s.station = none → s.device = none → s.known_network = none →
      s.adapter = none → s.network.isSome = true →
      (classifyStep c (path, s)).station = c.station ∧
      (classifyStep c (path, s)).networks path = s.network) := by
  constructor
  · intro h1 h2
    simp [classifyStep, h1, h2]
  · intro h1 _h2 _h3 _h4 h5
    simp [classifyStep, h1, h5]

def wSta : Station := ⟨.connected, none, false⟩

def wDev : Device := ⟨"wlan0", "aa:bb:cc:dd:ee:ff", true, "/adapter0", .station⟩

def wAllStaDev : All :=
  { station := some wSta, device := some wDev,
    rest := fun k => if k = "org.example.X" then some fooBag else none }

def wAllNetOnly : All := { network := some exNetFoo }

def cEmpty : Catalog := ⟨none, fun _ => none⟩

theorem classification_first_match_witness :
    ((classifyStep cEmpty ("/obj1", wAllStaDev)).station = some "/obj1" ∧
     (classifyStep cEmpty ("/obj1", wAllStaDev)).networks = cEmpty.networks) ∧
    ((classifyStep cEmpty ("/obj2", wAllNetOnly)).station = cEmpty.station ∧
     (classifyStep cEmpty ("/obj2", wAllNetOnly)).networks "/obj2" =
       wAllNetOnly.network) :=
  ⟨(classification_first_match cEmpty "/obj1" wAllStaDev).1 rfl rfl,
   (classification_first_match cEmpty "/obj2" wAllNetOnly).2
     rfl rfl rfl rfl rfl⟩

/-- C7: the scan result is discarded (`.ok()`): the whole run — the IPC
calls issued, the ordered-networks call, and the printed output — is the
same whether `scan()` succeeded or failed with any error. -/
theorem scan_failure_nonfatal (objects : List (String × All))
    (p s1 s2 : Except String Unit)
    (ord : Except String (List (String × Int))) :
    runMain objects ⟨p, s1, ord⟩ = runMain objects ⟨p, s2, ord⟩ := rfl

/-- The classification fold never sets a station when no entry qualifies. -/
theorem foldl_classify_station_none (objects : List (String × All)) :
    ∀ c : Catalog,
    (∀ ps ∈ objects, ¬(ps.2.station.isSome = true ∧ ps.2.device.isSome = true)) →
    (objects.foldl classifyStep c).station = c.station := by
  induction objects with
  | nil => intro c _; rfl
  | cons p t ih =>
    intro c h
    have hp := h p (List.mem_cons_self p t)
    have ht := fun x hx => h x (List.mem_cons_of_mem p hx)
    rw [List.foldl_cons, ih _ ht]
    by_cases hs : p.2.station.isSome = true
    · have hd : p.2.device.isSome = false := by
        cases hdev : p.2.device.isSome
        · rfl
        · exact absurd ⟨hs, hdev⟩ hp
      by_cases hn : p.2.network.isSome = true <;>
        simp [classifyStep, hs, hd, hn]
    · have hs' : p.2.station.isSome = false := by
        cases hst : p.2.station.isSome
        · rfl
        · exact absurd hst hs
      by_cases hn : p.2.network.isSome = true <;>
        simp [classifyStep, hs', hn]

/-- C8: when no decoded bundle has both the Station and the Device slot
populated, the run issues no IPC call at all, prints nothing, and exits 0. -/
theorem no_station_no_calls (objects : List (String × All)) (o : Oracle)
    (h : ∀ ps ∈ objects,
      ¬(ps.2.station.isSome = true ∧ ps.2.device.isSome = true)) :
    runMain objects o = ([], .ok []) := by
  have hst : (buildCatalog objects).station = none :=
    foldl_classify_station_none objects ⟨none, fun _ => none⟩ h
  simp [runMain, hst]

theorem no_station_no_calls_witness :
    runMain [("/obj2", wAllNetOnly)] ⟨.ok (), .ok (), .ok []⟩ =
      ([], .ok []) := by
  refine no_station_no_calls [("/obj2", wAllNetOnly)] _ ?_
  intro ps hps
  simp only [List.mem_singleton] at hps
  subst hps
  simp [wAllNetOnly]

/-- C9: the Typed Path Handle is in exact correspondence with the plain
identity: converting an identity to a handle (always possible) and back is
the identity, and a handle carries nothing beyond its identity. -/
theorem opath_roundtrip :
    (∀ (T : Type) (p : String), (OPath.ofPath T p).toPath = p) ∧
    (∀ (T : Type) (h : OPath T), OPath.ofPath T h.toPath = h) ∧
    (∀ (T : Type) (h1 h2 : OPath T), h1.toPath = h2.toPath → h1 = h2) := by
  refine ⟨fun T p => rfl, fun T h => rfl, fun T h1 h2 he => ?_⟩
  cases h1
  cases h2
  simpa [OPath.toPath] using he

theorem opath_roundtrip_witness :
    (OPath.ofPath Unit "/net/A").toPath = "/net/A" ∧
    OPath.ofPath Unit (OPath.toPath (⟨"/net/A"⟩ : OPath Unit)) =
      (⟨"/net/A"⟩ : OPath Unit) ∧
    (⟨"/x"⟩ : OPath Unit) = (⟨"/x"⟩ : OPath Unit) := by
  obtain ⟨h1, h2, h3⟩ := opath_roundtrip
  exact ⟨h1 Unit "/net/A", h2 Unit ⟨"/net/A"⟩, h3 Unit ⟨"/x"⟩ ⟨"/x"⟩ rfl⟩

/-- The join never looks at the signal component. -/
theorem joinNetworks_map_fst (lookup : String → Option Network) :
    ∀ (p1 p2 : List (String × Int)), p1.map Prod.fst = p2.map Prod.fst →
    joinNetworks lookup p1 = joinNetworks lookup p2 := by
  intro p1
  induction p1 with
  | nil =>
    intro p2 h
    cases p2 with
    | nil => rfl
    | cons q u => simp at h
  | cons p t ih =>
    intro p2 h
    cases p2 with
    | nil => simp at h
    | cons q u =>
      obtain ⟨a1, a2⟩ := p
      obtain ⟨b1, b2⟩ := q
      simp only [List.map_cons, List.cons.injEq] at h
      obtain ⟨rfl, hu⟩ := h
      cases hl : lookup a1 <;> simp [joinNetworks, hl, ih u hu]

/-- C10: the printed lines depend only on the identity sequence of the
ordered-networks result (and the lookup), never on the signal strengths:
two runs with the same identity sequence print the same lines. -/
theorem output_signal_independent (objects : List (String × All))
    (p s : Except String Unit) (ord1 ord2 : List (String × Int))
    (h : ord1.map Prod.fst = ord2.map Prod.fst) :
    (runMain objects ⟨p, s, .ok ord1⟩).2 =
      (runMain objects ⟨p, s, .ok ord2⟩).2 := by
  cases hst : (buildCatalog objects).station with
  | none => simp [runMain, hst]
  | some path =>
    cases p with
    | error e => simp [runMain, hst]
    | ok u =>
      simp [runMain, hst, joinNetworks_map_fst (buildCatalog objects).networks
        ord1 ord2 h]

theorem output_signal_independent_witness :
    (runMain [("/obj2", wAllNetOnly), ("/obj1", wAllStaDev)]
        ⟨.ok (), .ok (), .ok [("/net/A", 90), ("/net/B", 70)]⟩).2 =
      (runMain [("/obj2", wAllNetOnly), ("/obj1", wAllStaDev)]
        ⟨.ok (), .ok (), .ok [("/net/A", 17), ("/net/B", -3)]⟩).2 :=
  output_signal_independent _ _ _ _ _ rfl

end Iwd
